import Mathlib

/-!
Verification of the two command-line scripts in `rs-cfg2hcl`:

* `scripts/inspect_schema.py` (the Schema Inspector): reads one provider
  schema JSON dump, locates a resource-schema mapping under one of two
  hardcoded provider registry keys, and reports on one hardcoded resource.
* `scripts/update_discovery_config.py` (the Discovery-Config Updater):
  unions resource names across a directory of schema dumps and inserts
  placeholder entries into a YAML configuration file.

The embedding models JSON/YAML values as an inductive `Json` type whose
objects are association lists in insertion order (matching Python dicts and
`ruamel.yaml` round-trip maps).  Python operations that can raise
(`.get` on a non-dict, `len`, `in`, subscripting, item assignment,
`.values()`, `.keys()`) are modelled as `Except String` computations whose
error value stands for the exception message.  File reads and JSON parsing
are modelled by passing each file's parse outcome as an
`Except String Json` value.  `print` calls are collected into output lists;
the Updater model does not track output emitted on paths that end in an
uncaught exception.
-/

namespace Cfg2Hcl

/-- JSON/YAML values.  Objects keep fields as an association list in
insertion order, matching Python dict semantics. -/
inductive Json where
  | null
  | bool (b : Bool)
  | num (n : Int)
  | str (s : String)
  | arr (xs : List Json)
  | obj (fields : List (String × Json))

/-- Substring test on character lists (Python's `pat in s` for strings). -/
def strContains (s pat : String) : Bool :=
  (List.range (s.length + 1)).any fun i => pat.toList.isPrefixOf (s.toList.drop i)

/-- Python truthiness (`if not schemas:` in the Inspector). -/
def Json.truthy : Json → Bool
  | .null => false
  | .bool b => b
  | .num n => n != 0
  | .str s => s ≠ ""
  | .arr xs => !xs.isEmpty
  | .obj fs => !fs.isEmpty

/-- Python `container.get(key, default)`: defined for dicts, raises
`AttributeError` on any other value. -/
def Json.getD : Json → String → Json → Except String Json
  | .obj fs, k, d => .ok ((fs.lookup k).getD d)
  | _, _, _ => .error "AttributeError: object has no attribute get"

/-- Python `len(x)`: length of a dict, list, or string; `TypeError` otherwise. -/
def Json.pyLen : Json → Except String Nat
  | .obj fs => .ok fs.length
  | .arr xs => .ok xs.length
  | .str s => .ok s.length
  | _ => .error "TypeError: object has no len"

/-- Python `key in container` for a string key: key test on dicts,
substring test on strings, element test on lists, `TypeError` otherwise. -/
def Json.pyContains : Json → String → Except String Bool
  | .obj fs, k => .ok (fs.lookup k).isSome
  | .str s, k => .ok (strContains s k)
  | .arr xs, k => .ok (xs.any fun j => match j with | .str s => s == k | _ => false)
  | _, _ => .error "TypeError: argument of type is not iterable"

/-- Python `container[key]` for a string key: dict lookup (with `KeyError`
when absent), `TypeError` on any other value. -/
def Json.pyGetItem : Json → String → Except String Json
  | .obj fs, k =>
    match fs.lookup k with
    | some v => .ok v
    | none => .error s!"KeyError: {k}"
  | _, _ => .error "TypeError: object is not subscriptable"

/-- Assignment `d[k] = v` on an association list: replaces the value in
place when the key is present, appends the pair otherwise (Python dict
insertion-order semantics). -/
def setKey : List (String × Json) → String → Json → List (String × Json)
  | [], k, v => [(k, v)]
  | (k', v') :: rest, k, v =>
    if k' = k then (k, v) :: rest else (k', v') :: setKey rest k v

/-- Python `d[k] = v`: defined for dicts, `TypeError` otherwise. -/
def Json.pySetItem : Json → String → Json → Except String Json
  | .obj fs, k, v => .ok (.obj (setKey fs k v))
  | _, _, _ => .error "TypeError: object does not support item assignment"

/-- Python `d.values()`: defined for dicts, `AttributeError` otherwise. -/
def Json.values : Json → Except String (List Json)
  | .obj fs => .ok (fs.map Prod.snd)
  | _ => .error "AttributeError: object has no attribute values"

/-- Python `d.keys()`: defined for dicts, `AttributeError` otherwise. -/
def Json.keys : Json → Except String (List String)
  | .obj fs => .ok (fs.map Prod.fst)
  | _ => .error "AttributeError: object has no attribute keys"

/-! ## Schema Inspector (`scripts/inspect_schema.py`) -/

/-- The alternate (OpenTofu) registry provider key tried first. -/
def altKey : String := "registry.opentofu.org/hashicorp/google"

/-- The standard (Terraform) registry provider key tried second. -/
def stdKey : String := "registry.terraform.io/hashicorp/google"

/-- The expression
`data.get("provider_schemas", {}).get(provKey, {}).get("resource_schemas", {})`
used (twice) by the Inspector to reach a provider's resource-schema mapping. -/
def pathMapping (data : Json) (provKey : String) : Except String Json :=
  match data.getD "provider_schemas" (Json.obj []) with
  | .error e => .error e
  | .ok ps =>
    match ps.getD provKey (Json.obj []) with
    | .error e => .error e
    | .ok prov => prov.getD "resource_schemas" (Json.obj [])

/-- The Inspector's mapping selection: take the alternate-registry mapping,
and when it is falsy (`if not schemas:`) re-evaluate the lookup with the
standard-registry key. -/
def selectSchemas (data : Json) : Except String Json :=
  match pathMapping data altKey with
  | .error e => .error e
  | .ok s1 => if s1.truthy then .ok s1 else pathMapping data stdKey

/-- One line of Inspector standard output.  `dump j` stands for
`json.dumps(j, indent=2)` and `similar ks` for the f-string rendering of
the Python list of similar keys. -/
inductive OutLine where
  | text (s : String)
  | dump (j : Json)
  | similar (ks : List String)

/-- The hardcoded resource the Inspector looks for. -/
def targetResource : String := "google_organization_policy"

/-- The body of the Inspector's `try` block after `json.load` succeeded:
returns the lines printed so far and, when a statement raised, the
exception message. -/
def inspectBody (data : Json) : List OutLine × Option String :=
  match selectSchemas data with
  | .error e => ([], some e)
  | .ok schemas =>
    match schemas.pyLen with
    | .error e => ([], some e)
    | .ok n =>
      let countLine := OutLine.text s!"Found {n} resources."
      match schemas.pyContains targetResource with
      | .error e => ([countLine], some e)
      | .ok true =>
        match schemas.pyGetItem targetResource with
        | .error e => ([countLine], some e)
        | .ok d => ([countLine, .text s!"FOUND: {targetResource}", .dump d], none)
      | .ok false =>
        match schemas.keys with
        | .error e => ([countLine], some e)
        | .ok ks =>
          ([countLine, .text s!"NOT FOUND: {targetResource}",
            .similar (ks.filter fun k =>
              strContains k "organization" || strContains k "org_policy")], none)

/-- The Inspector's `try`/`except` given the outcome of `open` + `json.load`:
any exception is reported as a single `Error: <message>` line; the exit
code is 0 on every path (no explicit exit code is ever set). -/
def inspectRun (parsed : Except String Json) : List OutLine × Nat :=
  match parsed with
  | .error e => ([OutLine.text s!"Error: {e}"], 0)
  | .ok data =>
    match inspectBody data with
    | (out, none) => (out, 0)
    | (out, some e) => (out ++ [OutLine.text s!"Error: {e}"], 0)

/-- The whole Inspector script: `filepath = sys.argv[1]` runs before the
`try` block, so a missing argument raises an uncaught `IndexError`;
`readJson` models `open` + `json.load` on the given path. -/
def inspectMain (argv : List String) (readJson : String → Except String Json) :
    Except String (List OutLine × Nat) :=
  match argv.get? 1 with
  | none => .error "IndexError: list index out of range"
  | some filepath => .ok (inspectRun (readJson filepath))

/-! ## Discovery-Config Updater (`scripts/update_discovery_config.py`) -/

/-- One directory entry seen by `os.listdir`: its name and the outcome of
`open` + `json.load` on it. -/
structure SchemaFile where
  name : String
  content : Except String Json

/-- File-name test `filename.endswith(".json")`, on character lists. -/
def isJsonName (name : String) : Bool :=
  ".json".toList.isSuffixOf name.toList

/-- The inner loop of `load_schemas` over `data.get("provider_schemas",
{}).values()`: adds every key of each provider's `resource_schemas` to the
accumulator; the names added before a raising provider are kept (the `try`
wraps the whole file, and `resources.add` mutates the outer set). -/
def providerAdds : List Json → Finset String → Finset String × Option String
  | [], acc => (acc, none)
  | prov :: rest, acc =>
    match prov.getD "resource_schemas" (Json.obj []) with
    | .error e => (acc, some e)
    | .ok rs =>
      match rs.keys with
      | .error e => (acc, some e)
      | .ok ks => providerAdds rest (acc ∪ ks.toFinset)

/-- Processing of one parsed schema file inside `load_schemas`'s `try`. -/
def fileAdds (data : Json) (acc : Finset String) : Finset String × Option String :=
  match data.getD "provider_schemas" (Json.obj []) with
  | .error e => (acc, some e)
  | .ok ps =>
    match ps.values with
    | .error e => (acc, some e)
    | .ok provs => providerAdds provs acc

/-- The directory scan of `load_schemas`: each `.json` entry is read and
processed under a per-file `try`; an exception is reported as
`Error loading <filename>: <message>` and the scan continues. -/
def scanFiles : List SchemaFile → Finset String → Finset String × List String
  | [], acc => (acc, [])
  | ⟨name, content⟩ :: rest, acc =>
    if isJsonName name then
      match content with
      | .error e =>
        let r := scanFiles rest acc
        (r.1, s!"Error loading {name}: {e}" :: r.2)
      | .ok data =>
        match fileAdds data acc with
        | (acc2, none) => scanFiles rest acc2
        | (acc2, some e) =>
          let r := scanFiles rest acc2
          (r.1, s!"Error loading {name}: {e}" :: r.2)
    else scanFiles rest acc

/-- `load_schemas(schema_dir)`: returns the resource-name set and the
diagnostic lines printed.  `dirPresent` models `os.path.exists(schema_dir)`
and `files` the `os.listdir` listing with each entry's read/parse outcome. -/
def load_schemas (dirPresent : Bool) (dirPath : String) (files : List SchemaFile) :
    Finset String × List String :=
  if dirPresent then scanFiles files ∅
  else (∅, [s!"Schema directory {dirPath} does not exist."])

/-- The placeholder entry built by `update_config` for a new resource name:
the base dict, with the `asset_type`/`description` overrides applied when
the name is exactly `google_org_policy_policy` (the
`google_folder_organization_policy` branch is `pass`). -/
def makeEntry (res : String) : Json :=
  let base : List (String × Json) :=
    [("description", .str ("Auto-generated entry for " ++ res)),
     ("import", .bool false),
     ("asset_type", .str "TODO/UNKNOWN"),
     ("content_type", .str "RESOURCE"),
     ("derive_yaml_key_from", .str "name")]
  if res = "google_org_policy_policy" then
    .obj (setKey (setKey base "asset_type" (.str "orgpolicy.googleapis.com/Policy"))
      "description" (.str "Organization Policy V2"))
  else .obj base

/-- The `for res in sorted(schema_resources):` loop of `update_config`:
threads the `current_resources` object, the added-count, and the
`Adding new resource: <res>` lines; a raised exception aborts the loop
(and is not caught anywhere in the script). -/
def updateLoop : List String → Json → Nat → Except String (Json × Nat × List String)
  | [], cur, n => .ok (cur, n, [])
  | res :: rest, cur, n =>
    match cur.pyContains res with
    | .error e => .error e
    | .ok true => updateLoop rest cur n
    | .ok false =>
      match cur.pySetItem res (makeEntry res) with
      | .error e => .error e
      | .ok cur2 =>
        match updateLoop rest cur2 (n + 1) with
        | .error e => .error e
        | .ok (c, m, msgs) => .ok (c, m, s!"Adding new resource: {res}" :: msgs)

/-- Result of one `update_config` run: the on-disk file content afterwards
(`none` = the file does not exist), the message of an uncaught exception if
one was raised, the added-count, whether the file was rewritten, and the
lines printed (not tracked on exception paths). -/
structure UpdateResult where
  fileAfter : Option Json
  raised : Option String
  added : Nat
  wrote : Bool
  output : List String

/-- `update_config(config_path, schema_resources)`.  `configFile` is the
parse outcome of the existing file (`none` = `os.path.exists` is false).
The write-back of a mutated `config["resource_types"]` is modelled by
re-installing the final `current_resources` object under that key. -/
def update_config (configPath : String) (configFile : Option Json)
    (schemaResources : Finset String) : UpdateResult :=
  match configFile with
  | none => ⟨none, none, 0, false, [s!"Config file {configPath} does not exist."]⟩
  | some config =>
    match config.pyContains "resource_types" with
    | .error e => ⟨some config, some e, 0, false, []⟩
    | .ok mem =>
      match (if mem then Except.ok config
             else config.pySetItem "resource_types" (Json.obj [])) with
      | .error e => ⟨some config, some e, 0, false, []⟩
      | .ok config1 =>
        match config1.pyGetItem "resource_types" with
        | .error e => ⟨some config, some e, 0, false, []⟩
        | .ok current =>
          match updateLoop (schemaResources.sort (· ≤ ·)) current 0 with
          | .error e => ⟨some config, some e, 0, false, []⟩
          | .ok (cur2, added, msgs) =>
            if added > 0 then
              match config1.pySetItem "resource_types" cur2 with
              | .error e => ⟨some config, some e, added, false, msgs⟩
              | .ok newDoc =>
                ⟨some newDoc, none, added, true,
                 msgs ++ [s!"Added {added} new resources to {configPath}"]⟩
            else ⟨some config, none, 0, false,
                  msgs ++ ["No new resources found in schemas."]⟩

/-- The Updater's `main` after argument parsing: load the schemas, then
update the configuration with the resulting set. -/
def updaterMain (dirPresent : Bool) (dirPath : String) (files : List SchemaFile)
    (configPath : String) (configFile : Option Json) : UpdateResult :=
  update_config configPath configFile (load_schemas dirPresent dirPath files).1

/-! ## Statement-side definitions

Definitions used only to state claims: the resource-name union as claim C3
words it, a projection for frame properties, and concrete documents used in
counterexamples and witnesses. -/

/-- The resource names under one provider entry's resource-schema mapping,
read off the document shape (empty when the entry or the mapping is not a
mapping).  Follows the claim's words, for comparison with `load_schemas`. -/
def providerKeys : Json → Finset String
  | .obj pfs =>
    match pfs.lookup "resource_schemas" with
    | some (.obj rfs) => (rfs.map Prod.fst).toFinset
    | _ => ∅
  | _ => ∅

/-- Union of `providerKeys` over a list of provider entries. -/
def provsKeys : List Json → Finset String
  | [] => ∅
  | prov :: rest => providerKeys prov ∪ provsKeys rest

/-- Every key found under any provider entry's resource-schema mapping of
one document, as claim C3 words it. -/
def docKeys : Json → Finset String
  | .obj dfs =>
    match dfs.lookup "provider_schemas" with
    | some (.obj ps) => provsKeys (ps.map Prod.snd)
    | _ => ∅
  | _ => ∅

/-- The union over all `.json` files that parse successfully of `docKeys`,
as claim C3 words the expected result of `load_schemas`. -/
def claimedUnion : List SchemaFile → Finset String
  | [] => ∅
  | ⟨name, content⟩ :: rest =>
    (if isJsonName name then
      match content with
      | .ok d => docKeys d
      | .error _ => ∅
    else ∅) ∪ claimedUnion rest

/-- The `resource_types` association list of a configuration file state
(empty when the file, the key, or the mapping is missing or not a
mapping); used only to state frame properties. -/
def rtFields : Option Json → List (String × Json)
  | some (.obj cfs) =>
    match cfs.lookup "resource_types" with
    | some (.obj fs) => fs
    | _ => []
  | _ => []

/-- A schema document whose alternate-registry key-path is present with an
empty resource-schema mapping while the standard-registry key-path holds a
non-empty one. -/
def c1Doc : Json :=
  Json.obj [("provider_schemas", Json.obj
    [(altKey, Json.obj [("resource_schemas", Json.obj [])]),
     (stdKey, Json.obj
       [("resource_schemas", Json.obj [("google_compute_instance", Json.null)])])])]

/-- A directory listing with a single well-parsing `.json` file in which a
malformed provider entry precedes a well-formed one: the per-file loop
raises on the first entry and never reaches the second. -/
def c3Files : List SchemaFile :=
  [⟨"a.json", .ok (Json.obj [("provider_schemas", Json.obj
    [("p1", Json.str "bad"),
     ("p2", Json.obj [("resource_schemas", Json.obj [("google_r2", Json.null)])])])])⟩]

/-- A directory listing of two clean schema files with overlapping
resource-name sets. -/
def c3CleanFiles : List SchemaFile :=
  [⟨"a.json", .ok (Json.obj [("provider_schemas", Json.obj
    [("p", Json.obj [("resource_schemas",
      Json.obj [("google_r1", Json.null), ("google_r2", Json.null)])])])])⟩,
   ⟨"b.json", .ok (Json.obj [("provider_schemas", Json.obj
    [("p", Json.obj [("resource_schemas",
      Json.obj [("google_r2", Json.null), ("google_r3", Json.null)])])])])⟩]


/-! ## Association-list lemmas -/

theorem lookup_setKey_self (fs : List (String × Json)) (k : String) (v : Json) :
    (setKey fs k v).lookup k = some v := by
  induction fs with
  | nil => simp [setKey, List.lookup]
  | cons p rest ih =>
    obtain ⟨k', v'⟩ := p
    by_cases h : k' = k
    · subst h; simp [setKey, List.lookup]
    · have hb : (k == k') = false := by
        rw [beq_eq_false_iff_ne]; exact Ne.symm h
      simp [setKey, h, List.lookup, hb, ih]

theorem lookup_setKey_ne (fs : List (String × Json)) (k k' : String) (v : Json)
    (h : k' ≠ k) : (setKey fs k v).lookup k' = fs.lookup k' := by
  have hb : (k' == k) = false := by rw [beq_eq_false_iff_ne]; exact h
  induction fs with
  | nil => simp [setKey, List.lookup, hb]
  | cons p rest ih =>
    obtain ⟨a, b⟩ := p
    by_cases ha : a = k
    · subst ha; simp [setKey, List.lookup, hb]
    · simp [setKey, ha, List.lookup, ih]

theorem setKey_absent (fs : List (String × Json)) (k : String) (v : Json)
    (h : fs.lookup k = none) : setKey fs k v = fs ++ [(k, v)] := by
  induction fs with
  | nil => rfl
  | cons p rest ih =>
    obtain ⟨a, b⟩ := p
    by_cases ha : a = k
    · subst ha
      simp only [List.lookup, beq_self_eq_true] at h
      cases h
    · have hb : (k == a) = false := by rw [beq_eq_false_iff_ne]; exact Ne.symm ha
      simp only [List.lookup, hb] at h
      simp [setKey, ha, ih h]

theorem lookup_append_some (l1 l2 : List (String × Json)) (k : String) (v : Json)
    (h : l1.lookup k = some v) : (l1 ++ l2).lookup k = some v := by
  induction l1 with
  | nil => simp [List.lookup] at h
  | cons p rest ih =>
    obtain ⟨a, b⟩ := p
    cases hb : (k == a) with
    | true => simp only [List.lookup, hb] at h ⊢; exact h
    | false => simp only [List.cons_append, List.lookup, hb] at h ⊢; exact ih h

/-! ## Update-loop lemmas -/

/-- Step of `updateLoop` on a dict that already contains the head name. -/
theorem updateLoop_cons_mem (res : String) (rest : List String)
    (fs : List (String × Json)) (n : Nat) (h : (fs.lookup res).isSome = true) :
    updateLoop (res :: rest) (.obj fs) n = updateLoop rest (.obj fs) n := by
  simp [updateLoop, Json.pyContains, h]

/-- Step of `updateLoop` on a dict that does not contain the head name:
the placeholder entry is appended and the count incremented. -/
theorem updateLoop_cons_new (res : String) (rest : List String)
    (fs : List (String × Json)) (n : Nat) (h : fs.lookup res = none) :
    updateLoop (res :: rest) (.obj fs) n =
      match updateLoop rest (.obj (fs ++ [(res, makeEntry res)])) (n + 1) with
      | .error e => .error e
      | .ok (c, m, msgs) => .ok (c, m, s!"Adding new resource: {res}" :: msgs) := by
  simp [updateLoop, Json.pyContains, h, Json.pySetItem, setKey_absent fs res _ h]

/-- On a dict, the insertion loop always terminates normally, only appends
entries, and never decreases the added-count. -/
theorem updateLoop_obj (l : List String) (fs : List (String × Json)) (n : Nat) :
    ∃ ext m msgs,
      updateLoop l (.obj fs) n = .ok (.obj (fs ++ ext), m, msgs) ∧ n ≤ m := by
  induction l generalizing fs n with
  | nil => exact ⟨[], n, [], by simp [updateLoop], le_refl n⟩
  | cons res rest ih =>
    cases hl : fs.lookup res with
    | some v =>
      obtain ⟨ext, m, msgs, hrun, hm⟩ := ih fs n
      refine ⟨ext, m, msgs, ?_, hm⟩
      rw [updateLoop_cons_mem res rest fs n (by simp [hl])]
      exact hrun
    | none =>
      obtain ⟨ext, m, msgs, hrun, hm⟩ := ih (fs ++ [(res, makeEntry res)]) (n + 1)
      refine ⟨(res, makeEntry res) :: ext, m,
        s!"Adding new resource: {res}" :: msgs, ?_, by omega⟩
      rw [updateLoop_cons_new res rest fs n hl, hrun]
      simp

/-- Keys contained before a successful loop run are still contained after. -/
theorem updateLoop_mono (l : List String) (cur cur2 : Json) (n m : Nat)
    (msgs : List String) (h : updateLoop l cur n = .ok (cur2, m, msgs))
    (k : String) (hk : cur.pyContains k = .ok true) :
    cur2.pyContains k = .ok true := by
  induction l generalizing cur n m msgs with
  | nil =>
    simp only [updateLoop, Except.ok.injEq, Prod.mk.injEq] at h
    obtain ⟨h1, h2, h3⟩ := h
    rw [← h1]; exact hk
  | cons res rest ih =>
    unfold updateLoop at h
    cases hc : cur.pyContains res with
    | error e => simp only [hc] at h; exact Except.noConfusion h
    | ok b =>
      simp only [hc] at h
      cases b with
      | true => exact ih cur n m msgs h hk
      | false =>
        cases cur with
        | obj fs =>
          simp only [Json.pySetItem] at h
          cases hrest : updateLoop rest (.obj (setKey fs res (makeEntry res))) (n + 1) with
          | error e => simp only [hrest] at h; exact Except.noConfusion h
          | ok trip =>
            obtain ⟨c, m', msgs'⟩ := trip
            simp only [hrest, Except.ok.injEq, Prod.mk.injEq] at h
            obtain ⟨h1, h2, h3⟩ := h
            subst h1; subst h2
            simp only [Json.pyContains, Except.ok.injEq] at hk hc
            have hkres : k ≠ res := by
              intro hkr
              subst hkr
              rw [hk] at hc
              cases hc
            have hpre : ((setKey fs res (makeEntry res)).lookup k).isSome = true := by
              rw [lookup_setKey_ne fs res k (makeEntry res) hkres]; exact hk
            exact ih _ _ _ _ hrest (by simp [Json.pyContains, hpre])
        | null => simp [Json.pySetItem] at h
        | bool b2 => simp [Json.pySetItem] at h
        | num n2 => simp [Json.pySetItem] at h
        | str s2 => simp [Json.pySetItem] at h
        | arr xs => simp [Json.pySetItem] at h

/-- After a successful loop run, every processed name is contained. -/
theorem updateLoop_mem (l : List String) (cur cur2 : Json) (n m : Nat)
    (msgs : List String) (h : updateLoop l cur n = .ok (cur2, m, msgs)) :
    ∀ r ∈ l, cur2.pyContains r = .ok true := by
  induction l generalizing cur n m msgs with
  | nil => intro r hr; cases hr
  | cons res rest ih =>
    intro r hr
    unfold updateLoop at h
    cases hc : cur.pyContains res with
    | error e => simp only [hc] at h; exact Except.noConfusion h
    | ok b =>
      simp only [hc] at h
      cases b with
      | true =>
        rcases List.mem_cons.mp hr with hreq | hrr
        · subst hreq; exact updateLoop_mono rest cur cur2 n m msgs h r hc
        · exact ih cur n m msgs h r hrr
      | false =>
        cases cur with
        | obj fs =>
          simp only [Json.pySetItem] at h
          cases hrest : updateLoop rest (.obj (setKey fs res (makeEntry res))) (n + 1) with
          | error e => simp only [hrest] at h; exact Except.noConfusion h
          | ok trip =>
            obtain ⟨c, m', msgs'⟩ := trip
            simp only [hrest, Except.ok.injEq, Prod.mk.injEq] at h
            obtain ⟨h1, h2, h3⟩ := h
            subst h1; subst h2
            rcases List.mem_cons.mp hr with hreq | hrr
            · subst hreq
              refine updateLoop_mono rest _ _ (n + 1) _ _ hrest r ?_
              simp [Json.pyContains, lookup_setKey_self]
            · exact ih _ _ _ _ hrest r hrr
        | null => simp [Json.pySetItem] at h
        | bool b2 => simp [Json.pySetItem] at h
        | num n2 => simp [Json.pySetItem] at h
        | str s2 => simp [Json.pySetItem] at h
        | arr xs => simp [Json.pySetItem] at h

/-- A loop run over names that are all already contained is a no-op. -/
theorem updateLoop_all_mem (l : List String) (cur : Json) (n : Nat)
    (h : ∀ r ∈ l, cur.pyContains r = .ok true) :
    updateLoop l cur n = .ok (cur, n, []) := by
  induction l with
  | nil => rfl
  | cons res rest ih =>
    unfold updateLoop
    rw [h res (List.mem_cons_self res rest)]
    exact ih fun r hr => h r (List.mem_cons_of_mem res hr)

/-! ## update_config inversion lemmas -/

/-- A run that raised nothing and did not write leaves the file as it was
and added nothing. -/
theorem update_config_not_wrote (path : String) (config : Json) (S : Finset String)
    (hr : (update_config path (some config) S).raised = none)
    (hw : (update_config path (some config) S).wrote = false) :
    (update_config path (some config) S).fileAfter = some config ∧
    (update_config path (some config) S).added = 0 := by
  unfold update_config at hr hw ⊢
  cases hcp : config.pyContains "resource_types" with
  | error e => simp only [hcp] at hr; simp at hr
  | ok mem =>
    simp only [hcp] at hr hw ⊢
    cases hif : (if mem then Except.ok config
        else config.pySetItem "resource_types" (Json.obj [])) with
    | error e => simp only [hif] at hr; simp at hr
    | ok config1 =>
      simp only [hif] at hr hw ⊢
      cases hg : config1.pyGetItem "resource_types" with
      | error e => simp only [hg] at hr; simp at hr
      | ok cur =>
        simp only [hg] at hr hw ⊢
        cases hl : updateLoop (S.sort (· ≤ ·)) cur 0 with
        | error e => simp only [hl] at hr; simp at hr
        | ok trip =>
          obtain ⟨cur2, added, msgs⟩ := trip
          simp only [hl] at hr hw ⊢
          by_cases ha : added > 0
          · simp only [if_pos ha] at hr hw
            cases hsi : config1.pySetItem "resource_types" cur2 with
            | error e => simp only [hsi] at hr; simp at hr
            | ok newDoc => simp only [hsi] at hw; simp at hw
          · simp only [if_neg ha]
            constructor <;> trivial

/-- A run that rewrote the file: its pieces and the resulting file
content. -/
theorem update_config_wrote (path : String) (config : Json) (S : Finset String)
    (hw : (update_config path (some config) S).wrote = true) :
    ∃ cfs1 cur cur2 added msgs,
      (Json.obj cfs1).pyGetItem "resource_types" = .ok cur ∧
      updateLoop (S.sort (· ≤ ·)) cur 0 = .ok (cur2, added, msgs) ∧
      0 < added ∧
      update_config path (some config) S =
        ⟨some (.obj (setKey cfs1 "resource_types" cur2)), none, added, true,
         msgs ++ [s!"Added {added} new resources to {path}"]⟩ := by
  unfold update_config at hw ⊢
  cases hcp : config.pyContains "resource_types" with
  | error e => simp only [hcp] at hw; simp at hw
  | ok mem =>
    simp only [hcp] at hw ⊢
    cases hif : (if mem then Except.ok config
        else config.pySetItem "resource_types" (Json.obj [])) with
    | error e => simp only [hif] at hw; simp at hw
    | ok config1 =>
      simp only [hif] at hw ⊢
      cases hg : config1.pyGetItem "resource_types" with
      | error e => simp only [hg] at hw; simp at hw
      | ok cur =>
        simp only [hg] at hw ⊢
        cases hl : updateLoop (S.sort (· ≤ ·)) cur 0 with
        | error e => simp only [hl] at hw; simp at hw
        | ok trip =>
          obtain ⟨cur2, added, msgs⟩ := trip
          simp only [hl] at hw ⊢
          by_cases ha : added > 0
          · simp only [if_pos ha] at hw ⊢
            cases hsi : config1.pySetItem "resource_types" cur2 with
            | error e => simp only [hsi] at hw; simp at hw
            | ok newDoc =>
              simp only [hsi] at hw ⊢
              cases config1 with
              | obj cfs1 =>
                simp only [Json.pySetItem, Except.ok.injEq] at hsi
                refine ⟨cfs1, cur, cur2, added, msgs, hg, hl, ha, ?_⟩
                rw [← hsi]
              | null => simp [Json.pySetItem] at hsi
              | bool b2 => simp [Json.pySetItem] at hsi
              | num n2 => simp [Json.pySetItem] at hsi
              | str s2 => simp [Json.pySetItem] at hsi
              | arr xs => simp [Json.pySetItem] at hsi
          · simp only [if_neg ha] at hw; simp at hw

/-- With a dict config whose `resource_types` is absent or itself a dict,
`update_config` raises no exception. -/
theorem update_config_shape_ok (path : String) (S : Finset String)
    (cfs : List (String × Json))
    (hshape : cfs.lookup "resource_types" = none ∨
      ∃ fs0, cfs.lookup "resource_types" = some (Json.obj fs0)) :
    (update_config path (some (Json.obj cfs)) S).raised = none := by
  rcases hshape with hnone | ⟨fs0, hsome⟩
  · have hcp : (Json.obj cfs).pyContains "resource_types" = .ok false := by
      simp [Json.pyContains, hnone]
    have hg : (Json.obj (setKey cfs "resource_types" (Json.obj []))).pyGetItem
        "resource_types" = .ok (Json.obj []) := by
      simp [Json.pyGetItem, lookup_setKey_self]
    obtain ⟨ext, m, msgs, hl, _⟩ := updateLoop_obj (S.sort (· ≤ ·)) [] 0
    unfold update_config
    simp only [hcp, Bool.false_eq_true, if_false, Json.pySetItem, hg]
    simp only [List.nil_append] at hl
    simp only [hl]
    by_cases hm : m > 0
    · simp only [if_pos hm, Json.pySetItem]
    · simp only [if_neg hm]
  · have hcp : (Json.obj cfs).pyContains "resource_types" = .ok true := by
      simp [Json.pyContains, hsome]
    have hg : (Json.obj cfs).pyGetItem "resource_types" = .ok (Json.obj fs0) := by
      simp [Json.pyGetItem, hsome]
    obtain ⟨ext, m, msgs, hl, _⟩ := updateLoop_obj (S.sort (· ≤ ·)) fs0 0
    unfold update_config
    simp only [hcp, if_true, hg, hl]
    by_cases hm : m > 0
    · simp only [if_pos hm, Json.pySetItem]
    · simp only [if_neg hm]

/-- A fresh name processed by the loop ends up mapped to its placeholder
entry, and the added-count strictly increases. -/
theorem updateLoop_lookup_new (l : List String) (fs : List (String × Json)) (n : Nat)
    (cur2 : Json) (m : Nat) (msgs : List String)
    (h : updateLoop l (.obj fs) n = .ok (cur2, m, msgs))
    (r : String) (hr : r ∈ l) (hnew : fs.lookup r = none) :
    ∃ fs2, cur2 = .obj fs2 ∧ fs2.lookup r = some (makeEntry r) ∧ n < m := by
  induction l generalizing fs n cur2 m msgs with
  | nil => cases hr
  | cons res rest ih =>
    by_cases hres : r = res
    · subst hres
      rw [updateLoop_cons_new r rest fs n hnew] at h
      cases hrest : updateLoop rest (.obj (fs ++ [(r, makeEntry r)])) (n + 1) with
      | error e => rw [hrest] at h; exact Except.noConfusion h
      | ok trip =>
        obtain ⟨c, m1, msgs1⟩ := trip
        rw [hrest] at h
        simp only [Except.ok.injEq, Prod.mk.injEq] at h
        obtain ⟨h1, h2, h3⟩ := h
        subst h1; subst h2
        obtain ⟨ext, m2, msgs2, hrun, hm⟩ :=
          updateLoop_obj rest (fs ++ [(r, makeEntry r)]) (n + 1)
        rw [hrun] at hrest
        simp only [Except.ok.injEq, Prod.mk.injEq] at hrest
        obtain ⟨hc2, hm2, hmsg2⟩ := hrest
        refine ⟨(fs ++ [(r, makeEntry r)]) ++ ext, hc2.symm, ?_, ?_⟩
        · refine lookup_append_some _ ext r (makeEntry r) ?_
          rw [← setKey_absent fs r (makeEntry r) hnew]
          exact lookup_setKey_self fs r (makeEntry r)
        · omega
    · have hrr : r ∈ rest := by
        rcases List.mem_cons.mp hr with h1 | h1
        · exact absurd h1 hres
        · exact h1
      cases hl : fs.lookup res with
      | some v =>
        rw [updateLoop_cons_mem res rest fs n (by simp [hl])] at h
        exact ih fs n cur2 m msgs h hrr hnew
      | none =>
        rw [updateLoop_cons_new res rest fs n hl] at h
        cases hrest : updateLoop rest (.obj (fs ++ [(res, makeEntry res)])) (n + 1) with
        | error e => rw [hrest] at h; exact Except.noConfusion h
        | ok trip =>
          obtain ⟨c, m1, msgs1⟩ := trip
          rw [hrest] at h
          simp only [Except.ok.injEq, Prod.mk.injEq] at h
          obtain ⟨h1, h2, h3⟩ := h
          subst h1; subst h2
          have hnew2 : (fs ++ [(res, makeEntry res)]).lookup r = none := by
            rw [← setKey_absent fs res (makeEntry res) hl,
              lookup_setKey_ne fs res r (makeEntry res) hres]
            exact hnew
          obtain ⟨fs2, hfs2, hlook, hlt⟩ := ih _ _ _ _ _ hrest hrr hnew2
          exact ⟨fs2, hfs2, hlook, by omega⟩

/-! ## Directory-scan lemmas -/

/-- A provider loop that raised nothing adds exactly the providers' keys. -/
theorem providerAdds_clean (provs : List Json) (acc acc2 : Finset String)
    (h : providerAdds provs acc = (acc2, none)) :
    acc2 = acc ∪ provsKeys provs := by
  induction provs generalizing acc with
  | nil =>
    simp only [providerAdds, Prod.mk.injEq] at h
    simp [provsKeys, ← h.1]
  | cons prov rest ih =>
    unfold providerAdds at h
    cases hg : prov.getD "resource_schemas" (Json.obj []) with
    | error e => simp only [hg] at h; simp at h
    | ok rs =>
      simp only [hg] at h
      cases hk : rs.keys with
      | error e => simp only [hk] at h; simp at h
      | ok ks =>
        simp only [hk] at h
        have hrec := ih (acc ∪ ks.toFinset) h
        have hpk : providerKeys prov = ks.toFinset := by
          cases prov with
          | obj pfs =>
            simp only [Json.getD, Except.ok.injEq] at hg
            cases hlk : pfs.lookup "resource_schemas" with
            | none =>
              rw [hlk] at hg
              simp only [Option.getD_none] at hg
              rw [← hg] at hk
              simp only [Json.keys, Except.ok.injEq] at hk
              simp [providerKeys, hlk, ← hk]
            | some v =>
              rw [hlk] at hg
              simp only [Option.getD_some] at hg
              rw [← hg] at hk
              cases v with
              | obj rfs =>
                simp only [Json.keys, Except.ok.injEq] at hk
                simp [providerKeys, hlk, ← hk]
              | null => simp [Json.keys] at hk
              | bool b2 => simp [Json.keys] at hk
              | num n2 => simp [Json.keys] at hk
              | str s2 => simp [Json.keys] at hk
              | arr xs => simp [Json.keys] at hk
          | null => simp [Json.getD] at hg
          | bool b2 => simp [Json.getD] at hg
          | num n2 => simp [Json.getD] at hg
          | str s2 => simp [Json.getD] at hg
          | arr xs => simp [Json.getD] at hg
        rw [hrec]
        simp [provsKeys, hpk, Finset.union_assoc]

/-- A per-file pass that raised nothing adds exactly the document's keys. -/
theorem fileAdds_clean (data : Json) (acc acc2 : Finset String)
    (h : fileAdds data acc = (acc2, none)) : acc2 = acc ∪ docKeys data := by
  unfold fileAdds at h
  cases hg : data.getD "provider_schemas" (Json.obj []) with
  | error e => simp only [hg] at h; simp at h
  | ok ps =>
    simp only [hg] at h
    cases hv : ps.values with
    | error e => simp only [hv] at h; simp at h
    | ok provs =>
      simp only [hv] at h
      have hrec := providerAdds_clean provs acc acc2 h
      have hdk : docKeys data = provsKeys provs := by
        cases data with
        | obj dfs =>
          simp only [Json.getD, Except.ok.injEq] at hg
          cases hlk : dfs.lookup "provider_schemas" with
          | none =>
            rw [hlk] at hg
            simp only [Option.getD_none] at hg
            rw [← hg] at hv
            simp only [Json.values, Except.ok.injEq] at hv
            simp [docKeys, hlk, ← hv, provsKeys]
          | some v =>
            rw [hlk] at hg
            simp only [Option.getD_some] at hg
            rw [← hg] at hv
            cases v with
            | obj psl =>
              simp only [Json.values, Except.ok.injEq] at hv
              simp [docKeys, hlk, ← hv]
            | null => simp [Json.values] at hv
            | bool b2 => simp [Json.values] at hv
            | num n2 => simp [Json.values] at hv
            | str s2 => simp [Json.values] at hv
            | arr xs => simp [Json.values] at hv
        | null => simp [Json.getD] at hg
        | bool b2 => simp [Json.getD] at hg
        | num n2 => simp [Json.getD] at hg
        | str s2 => simp [Json.getD] at hg
        | arr xs => simp [Json.getD] at hg
      rw [hrec, hdk]

/-- A scan that printed no error line returns the accumulator united with
the claimed union. -/
theorem scanFiles_clean (files : List SchemaFile) (acc : Finset String)
    (h : (scanFiles files acc).2 = []) :
    (scanFiles files acc).1 = acc ∪ claimedUnion files := by
  induction files generalizing acc with
  | nil => simp [scanFiles, claimedUnion]
  | cons f rest ih =>
    obtain ⟨name, content⟩ := f
    by_cases hj : isJsonName name
    · cases content with
      | error e =>
        simp only [scanFiles, hj, if_true] at h
        simp at h
      | ok data =>
        cases hf : fileAdds data acc with
        | mk acc2 err =>
          cases err with
          | none =>
            simp only [scanFiles, hj, if_true, hf] at h ⊢
            rw [ih acc2 h, fileAdds_clean data acc acc2 hf]
            simp [claimedUnion, hj, Finset.union_assoc]
          | some e =>
            simp only [scanFiles, hj, if_true, hf] at h
            simp at h
    · simp only [scanFiles] at h ⊢
      rw [if_neg hj] at h ⊢
      rw [ih acc h]
      simp [claimedUnion, hj]

/-- Inserting an unreadable `.json` file anywhere in the listing leaves the
gathered name set unchanged and adds its error line to the output. -/
theorem scanFiles_insert_error (pre post : List SchemaFile) (acc : Finset String)
    (badName e : String) (hjson : isJsonName badName = true) :
    (scanFiles (pre ++ ⟨badName, .error e⟩ :: post) acc).1 =
      (scanFiles (pre ++ post) acc).1 ∧
    s!"Error loading {badName}: {e}" ∈
      (scanFiles (pre ++ ⟨badName, .error e⟩ :: post) acc).2 := by
  induction pre generalizing acc with
  | nil =>
    constructor
    · simp [scanFiles, hjson]
    · simp [scanFiles, hjson]
  | cons f rest ih =>
    obtain ⟨name, content⟩ := f
    simp only [List.cons_append]
    by_cases hj : isJsonName name
    · cases content with
      | error e2 =>
        constructor
        · simp only [scanFiles, hj, if_true]
          exact (ih acc).1
        · simp only [scanFiles, hj, if_true]
          exact List.mem_cons_of_mem _ (ih acc).2
      | ok data =>
        cases hf : fileAdds data acc with
        | mk acc2 err =>
          cases err with
          | none =>
            constructor
            · simp only [scanFiles, hj, if_true, hf]
              exact (ih acc2).1
            · simp only [scanFiles, hj, if_true, hf]
              exact (ih acc2).2
          | some e3 =>
            constructor
            · simp only [scanFiles, hj, if_true, hf]
              exact (ih acc2).1
            · simp only [scanFiles, hj, if_true, hf]
              exact List.mem_cons_of_mem _ (ih acc2).2
    · constructor
      · simp only [scanFiles]
        rw [if_neg hj, if_neg hj]
        exact (ih acc).1
      · simp only [scanFiles]
        rw [if_neg hj]
        exact (ih acc).2

/-! ## Inspector lemmas -/

/-- The Inspector's exit code is 0 on every path. -/
theorem inspectRun_code_zero (parsed : Except String Json) :
    (inspectRun parsed).2 = 0 := by
  cases parsed with
  | error e => rfl
  | ok data =>
    unfold inspectRun
    cases hb : inspectBody data with
    | mk out err => cases err <;> simp [hb]

/-! ## Claim C1: Inspector mapping selection -/

/-- C1 (counterexample): on a document whose alternate-registry key-path is
present but maps to an empty resource-schema mapping, the Inspector does
not use that empty mapping (as the claim requires of the first present
key-path); it returns the standard-registry mapping instead. -/
theorem c1_counterexample :
    pathMapping c1Doc altKey = .ok (Json.obj []) ∧
    selectSchemas c1Doc =
      .ok (Json.obj [("google_compute_instance", Json.null)]) ∧
    Json.obj [("google_compute_instance", Json.null)] ≠ Json.obj [] :=
  ⟨rfl, rfl, by simp⟩

/-- C1 (amended): the Inspector selects the alternate-registry mapping only
when it is present and non-empty (truthy); otherwise it falls back to the
standard-registry mapping, which defaults to an empty mapping when that
key-path is absent.  A present-but-empty alternate mapping is skipped. -/
theorem c1_selectSchemas_fallback (data a s : Json)
    (ha : pathMapping data altKey = .ok a)
    (hs : pathMapping data stdKey = .ok s) :
    selectSchemas data = .ok (if a.truthy then a else s) := by
  unfold selectSchemas
  rw [ha]
  by_cases h : a.truthy
  · simp [h]
  · simp [h, hs]

/-- C1 witness: the amended fallback rule evaluated on `c1Doc`. -/
theorem c1_selectSchemas_fallback_witness :
    selectSchemas c1Doc =
      .ok (Json.obj [("google_compute_instance", Json.null)]) := by
  have h := c1_selectSchemas_fallback c1Doc (Json.obj [])
    (Json.obj [("google_compute_instance", Json.null)]) rfl rfl
  exact h.trans rfl

/-! ## Claim C2: Updater idempotence -/

/-- Core of claim C2: a second `update_config` run with the same resource
set, on the file content left by a first non-raising run, adds nothing,
performs no write, and leaves the file content unchanged. -/
theorem update_config_idem (path : String) (file : Option Json) (S : Finset String)
    (h : (update_config path file S).raised = none) :
    (update_config path (update_config path file S).fileAfter S).added = 0 ∧
    (update_config path (update_config path file S).fileAfter S).wrote = false ∧
    (update_config path (update_config path file S).fileAfter S).fileAfter =
      (update_config path file S).fileAfter := by
  cases file with
  | none => exact ⟨rfl, rfl, rfl⟩
  | some config =>
    by_cases hw : (update_config path (some config) S).wrote
    · obtain ⟨cfs1, cur, cur2, added, msgs, hg, hl, hadd, heq⟩ :=
        update_config_wrote path config S hw
      have hfa : (update_config path (some config) S).fileAfter =
          some (.obj (setKey cfs1 "resource_types" cur2)) := by rw [heq]
      have hcp2 : (Json.obj (setKey cfs1 "resource_types" cur2)).pyContains
          "resource_types" = .ok true := by
        simp [Json.pyContains, lookup_setKey_self]
      have hg2 : (Json.obj (setKey cfs1 "resource_types" cur2)).pyGetItem
          "resource_types" = .ok cur2 := by
        simp [Json.pyGetItem, lookup_setKey_self]
      have hl2 : updateLoop (S.sort (· ≤ ·)) cur2 0 = .ok (cur2, 0, []) :=
        updateLoop_all_mem _ _ _ (updateLoop_mem _ _ _ _ _ _ hl)
      have hrun2 : update_config path
          (some (.obj (setKey cfs1 "resource_types" cur2))) S =
          ⟨some (.obj (setKey cfs1 "resource_types" cur2)), none, 0, false,
           ["No new resources found in schemas."]⟩ := by
        unfold update_config
        simp only [hcp2, if_true, hg2, hl2]
        simp
      rw [hfa, hrun2]
      exact ⟨rfl, rfl, rfl⟩
    · have hwf : (update_config path (some config) S).wrote = false := by
        revert hw
        cases (update_config path (some config) S).wrote <;> simp
      obtain ⟨hfa, hadd0⟩ := update_config_not_wrote path config S h hwf
      rw [hfa]
      exact ⟨hadd0, hwf, hfa⟩

/-- C2: running the Updater a second time with unchanged inputs adds zero
entries and performs no write, leaving the configuration file identical to
its state after the first run. -/
theorem c2_second_run_noop (dirPresent : Bool) (dirPath : String)
    (files : List SchemaFile) (configPath : String) (configFile : Option Json)
    (h : (updaterMain dirPresent dirPath files configPath configFile).raised = none) :
    (updaterMain dirPresent dirPath files configPath
      (updaterMain dirPresent dirPath files configPath configFile).fileAfter).added = 0 ∧
    (updaterMain dirPresent dirPath files configPath
      (updaterMain dirPresent dirPath files configPath configFile).fileAfter).wrote = false ∧
    (updaterMain dirPresent dirPath files configPath
      (updaterMain dirPresent dirPath files configPath configFile).fileAfter).fileAfter =
      (updaterMain dirPresent dirPath files configPath configFile).fileAfter :=
  update_config_idem configPath configFile (load_schemas dirPresent dirPath files).1 h

/-- C2 witness: two runs on an initially empty mapping document. -/
theorem c2_second_run_noop_witness :
    (updaterMain true "schemas" [] "config.yaml"
      (updaterMain true "schemas" [] "config.yaml" (some (Json.obj []))).fileAfter).added = 0 ∧
    (updaterMain true "schemas" [] "config.yaml"
      (updaterMain true "schemas" [] "config.yaml" (some (Json.obj []))).fileAfter).wrote = false ∧
    (updaterMain true "schemas" [] "config.yaml"
      (updaterMain true "schemas" [] "config.yaml" (some (Json.obj []))).fileAfter).fileAfter =
      (updaterMain true "schemas" [] "config.yaml" (some (Json.obj []))).fileAfter :=
  c2_second_run_noop true "schemas" [] "config.yaml" (some (Json.obj []))
    (update_config_shape_ok "config.yaml" (load_schemas true "schemas" []).1 []
      (Or.inl rfl))

/-! ## Claim C3: load_schemas union -/

/-- C3 (counterexample): a directory whose single `.json` file parses
successfully, on which `load_schemas` does not return the claimed union:
the malformed first provider entry aborts the per-file loop before the
well-formed second provider entry is read, so its names are dropped. -/
theorem c3_counterexample :
    (c3Files.all fun f =>
      match f.content with | .ok _ => true | .error _ => false) = true ∧
    "google_r2" ∈ claimedUnion c3Files ∧
    "google_r2" ∉ (load_schemas true "schemas" c3Files).1 ∧
    (load_schemas true "schemas" c3Files).1 ≠ claimedUnion c3Files := by
  have h2 : "google_r2" ∈ claimedUnion c3Files := by decide
  have h3 : "google_r2" ∉ (load_schemas true "schemas" c3Files).1 := by decide
  refine ⟨rfl, h2, h3, fun heq => ?_⟩
  rw [heq] at h3
  exact h3 h2

/-- C3 (amended): when the scan reports no per-file error, `load_schemas`
on an existing directory returns exactly the union over all `.json` files
of every key under any provider entry's resource-schema mapping, with set
semantics (duplicates collapse, no extraneous names). -/
theorem c3_union_of_clean (dirPath : String) (files : List SchemaFile)
    (hclean : (scanFiles files ∅).2 = []) :
    (load_schemas true dirPath files).1 = claimedUnion files := by
  unfold load_schemas
  rw [if_pos rfl]
  rw [scanFiles_clean files ∅ hclean]
  simp

/-- C3 witness: two clean files with overlapping resource-name sets. -/
theorem c3_union_of_clean_witness :
    (load_schemas true "schemas" c3CleanFiles).1 = claimedUnion c3CleanFiles :=
  c3_union_of_clean "schemas" c3CleanFiles rfl

/-! ## Claim C4: placeholder entries -/

/-- C4: a name newly inserted by `update_config` is mapped to the special
entry when it is exactly `google_org_policy_policy` (asset type
`orgpolicy.googleapis.com/Policy`, description `Organization Policy V2`,
and import still false) and to the generic placeholder otherwise
(`TODO/UNKNOWN`, auto-generated description, import false, content type
`RESOURCE`, `derive_yaml_key_from` `name`). -/
theorem c4_placeholder_entries (path res : String) (S : Finset String)
    (cfs fs0 : List (String × Json))
    (hres : res ∈ S)
    (hcfg : cfs.lookup "resource_types" = some (Json.obj fs0))
    (hnew : fs0.lookup res = none) :
    ∃ fs2,
      (update_config path (some (Json.obj cfs)) S).fileAfter =
        some (Json.obj (setKey cfs "resource_types" (Json.obj fs2))) ∧
      fs2.lookup res = some (
        if res = "google_org_policy_policy" then
          Json.obj [("description", Json.str "Organization Policy V2"),
            ("import", Json.bool false),
            ("asset_type", Json.str "orgpolicy.googleapis.com/Policy"),
            ("content_type", Json.str "RESOURCE"),
            ("derive_yaml_key_from", Json.str "name")]
        else
          Json.obj [("description", Json.str ("Auto-generated entry for " ++ res)),
            ("import", Json.bool false),
            ("asset_type", Json.str "TODO/UNKNOWN"),
            ("content_type", Json.str "RESOURCE"),
            ("derive_yaml_key_from", Json.str "name")]) := by
  have hment : makeEntry res = (
      if res = "google_org_policy_policy" then
        Json.obj [("description", Json.str "Organization Policy V2"),
          ("import", Json.bool false),
          ("asset_type", Json.str "orgpolicy.googleapis.com/Policy"),
          ("content_type", Json.str "RESOURCE"),
          ("derive_yaml_key_from", Json.str "name")]
      else
        Json.obj [("description", Json.str ("Auto-generated entry for " ++ res)),
          ("import", Json.bool false),
          ("asset_type", Json.str "TODO/UNKNOWN"),
          ("content_type", Json.str "RESOURCE"),
          ("derive_yaml_key_from", Json.str "name")]) := by
    by_cases hsp : res = "google_org_policy_policy"
    · subst hsp; rfl
    · simp [makeEntry, hsp]
  have hcp : (Json.obj cfs).pyContains "resource_types" = .ok true := by
    simp [Json.pyContains, hcfg]
  have hg : (Json.obj cfs).pyGetItem "resource_types" = .ok (Json.obj fs0) := by
    simp [Json.pyGetItem, hcfg]
  obtain ⟨ext, m, msgs, hl, _⟩ := updateLoop_obj (S.sort (· ≤ ·)) fs0 0
  obtain ⟨fs2, hfs2, hlook, hpos⟩ :=
    updateLoop_lookup_new (S.sort (· ≤ ·)) fs0 0 (.obj (fs0 ++ ext)) m msgs hl res
      ((Finset.mem_sort (· ≤ ·)).mpr hres) hnew
  unfold update_config
  simp only [hcp, if_true, hg, hl]
  simp only [if_pos hpos, Json.pySetItem]
  refine ⟨fs2, ?_, by rw [← hment]; exact hlook⟩
  rw [hfs2]

/-- C4 witness: inserting the special-cased name into an empty mapping. -/
theorem c4_placeholder_entries_witness :
    ∃ fs2,
      (update_config "config.yaml"
        (some (Json.obj [("resource_types", Json.obj [])]))
        {"google_org_policy_policy"}).fileAfter =
        some (Json.obj (setKey [("resource_types", Json.obj [])]
          "resource_types" (Json.obj fs2))) ∧
      fs2.lookup "google_org_policy_policy" = some (
        Json.obj [("description", Json.str "Organization Policy V2"),
          ("import", Json.bool false),
          ("asset_type", Json.str "orgpolicy.googleapis.com/Policy"),
          ("content_type", Json.str "RESOURCE"),
          ("derive_yaml_key_from", Json.str "name")]) := by
  simpa using c4_placeholder_entries "config.yaml" "google_org_policy_policy"
    {"google_org_policy_policy"} [("resource_types", Json.obj [])] []
    (Finset.mem_singleton_self "google_org_policy_policy") rfl rfl

/-! ## Claim C5: existing entries preserved -/

/-- C5: every key already present in the `resource_types` mapping keeps its
entry, position and neighbours: the original association list is a prefix
of the mapping in the resulting file state, so no pre-existing entry is
overwritten, reordered, or removed, whatever the input set. -/
theorem c5_existing_preserved (path : String) (S : Finset String)
    (cfs fs0 : List (String × Json))
    (hcfg : cfs.lookup "resource_types" = some (Json.obj fs0)) :
    ∃ ext2,
      rtFields (update_config path (some (Json.obj cfs)) S).fileAfter =
        fs0 ++ ext2 ∧
      ∀ k v, fs0.lookup k = some v → (fs0 ++ ext2).lookup k = some v := by
  have hcp : (Json.obj cfs).pyContains "resource_types" = .ok true := by
    simp [Json.pyContains, hcfg]
  have hg : (Json.obj cfs).pyGetItem "resource_types" = .ok (Json.obj fs0) := by
    simp [Json.pyGetItem, hcfg]
  obtain ⟨ext, m, msgs, hl, _⟩ := updateLoop_obj (S.sort (· ≤ ·)) fs0 0
  unfold update_config
  simp only [hcp, if_true, hg, hl]
  by_cases hm : m > 0
  · simp only [if_pos hm, Json.pySetItem]
    refine ⟨ext, ?_, fun k v hkv => lookup_append_some fs0 ext k v hkv⟩
    simp [rtFields, lookup_setKey_self]
  · simp only [if_neg hm]
    refine ⟨[], ?_, fun k v hkv => lookup_append_some fs0 [] k v hkv⟩
    simp [rtFields, hcfg]

/-- C5 witness: an existing entry survives an insertion run unchanged. -/
theorem c5_existing_preserved_witness :
    ∃ ext2,
      rtFields (update_config "config.yaml"
        (some (Json.obj [("resource_types",
          Json.obj [("existing", Json.str "keep")])]))
        {"google_new"}).fileAfter =
        [("existing", Json.str "keep")] ++ ext2 ∧
      ∀ k v, [("existing", Json.str "keep")].lookup k = some v →
        ([("existing", Json.str "keep")] ++ ext2).lookup k = some v :=
  c5_existing_preserved "config.yaml" {"google_new"}
    [("resource_types", Json.obj [("existing", Json.str "keep")])]
    [("existing", Json.str "keep")] rfl

/-! ## Claim C6: per-file failure isolation -/

/-- C6: a read or parse failure on one `.json` file is reported with the
filename and message, and does not abort the scan: the names gathered from
the remaining files are exactly those gathered without the bad file. -/
theorem c6_per_file_isolation (dirPath badName e : String)
    (pre post : List SchemaFile) (hjson : isJsonName badName = true) :
    (load_schemas true dirPath (pre ++ ⟨badName, .error e⟩ :: post)).1 =
      (load_schemas true dirPath (pre ++ post)).1 ∧
    s!"Error loading {badName}: {e}" ∈
      (load_schemas true dirPath (pre ++ ⟨badName, .error e⟩ :: post)).2 := by
  unfold load_schemas
  rw [if_pos rfl, if_pos rfl]
  exact scanFiles_insert_error pre post ∅ badName e hjson

/-- C6 witness: an unreadable file after two clean ones. -/
theorem c6_per_file_isolation_witness :
    (load_schemas true "schemas" (c3CleanFiles ++ ⟨"bad.json", .error "boom"⟩ :: [])).1 =
      (load_schemas true "schemas" (c3CleanFiles ++ [])).1 ∧
    "Error loading bad.json: boom" ∈
      (load_schemas true "schemas" (c3CleanFiles ++ ⟨"bad.json", .error "boom"⟩ :: [])).2 :=
  c6_per_file_isolation "schemas" "bad.json" "boom" c3CleanFiles [] (by decide)

/-! ## Claim C7: Inspector catch-all -/

/-- C7: any error in the Inspector during file read, JSON parse, or the
body's lookups is caught and reported as a single `Error: <message>` line
(appended after any lines already printed), and the exit code is 0 on
every path (no explicit non-zero exit code is ever set). -/
theorem c7_inspector_catch (parsed : Except String Json) (e : String) :
    (parsed = .error e → inspectRun parsed = ([OutLine.text s!"Error: {e}"], 0)) ∧
    (∀ data out, parsed = .ok data → inspectBody data = (out, some e) →
      inspectRun parsed = (out ++ [OutLine.text s!"Error: {e}"], 0)) ∧
    (inspectRun parsed).2 = 0 := by
  refine ⟨?_, ?_, inspectRun_code_zero parsed⟩
  · intro h; rw [h]; rfl
  · intro data out h hb
    rw [h]
    simp [inspectRun, hb]

/-- C7 witness: a failing read is reported as a single error line. -/
theorem c7_inspector_catch_witness :
    inspectRun (.error "boom") = ([OutLine.text "Error: boom"], 0) :=
  (c7_inspector_catch (.error "boom") "boom").1 rfl

/-! ## Claim C8: missing input paths -/

/-- C8: a nonexistent schema directory yields a diagnostic and the empty
set; a nonexistent config file yields a diagnostic and no file creation or
modification (the file state stays `none`, nothing is written). -/
theorem c8_missing_paths (dirPath configPath : String) (files : List SchemaFile)
    (S : Finset String) :
    load_schemas false dirPath files =
      (∅, [s!"Schema directory {dirPath} does not exist."]) ∧
    update_config configPath none S =
      ⟨none, none, 0, false, [s!"Config file {configPath} does not exist."]⟩ :=
  ⟨rfl, rfl⟩

/-! ## Claim C9: argv read before try -/

/-- C9: the command-line argument is read before the `try` block, so a
missing argument propagates an uncaught `IndexError`, while any invocation
that supplies an argument never surfaces an uncaught exception. -/
theorem c9_argv_outside_try (argv : List String)
    (readJson : String → Except String Json) :
    (argv.length ≤ 1 →
      inspectMain argv readJson = .error "IndexError: list index out of range") ∧
    (∀ fp, argv.get? 1 = some fp →
      inspectMain argv readJson = .ok (inspectRun (readJson fp)) ∧
      (inspectRun (readJson fp)).2 = 0) := by
  constructor
  · intro h
    have hn : argv.get? 1 = none := by
      rw [List.get?_eq_none]
      exact h
    unfold inspectMain
    rw [hn]
  · intro fp hfp
    refine ⟨?_, inspectRun_code_zero (readJson fp)⟩
    unfold inspectMain
    rw [hfp]

/-- C9 witness: no argument raises, one argument is caught-safe. -/
theorem c9_argv_outside_try_witness :
    inspectMain ["inspect_schema.py"] (fun _ => Except.error "unused") =
      .error "IndexError: list index out of range" ∧
    inspectMain ["inspect_schema.py", "schema.json"] (fun _ => Except.error "unused") =
      .ok (inspectRun (Except.error "unused")) :=
  ⟨(c9_argv_outside_try ["inspect_schema.py"] (fun _ => Except.error "unused")).1
      (by decide),
   ((c9_argv_outside_try ["inspect_schema.py", "schema.json"]
      (fun _ => Except.error "unused")).2 "schema.json" rfl).1⟩

/-! ## Claim C10: update_config preconditions -/

/-- C10: `update_config` raises nothing when the config parses to a mapping
whose `resource_types`, if present, is a mapping; a config parsing to null
raises an uncaught `TypeError` on the membership test, and a null
`resource_types` raises an uncaught `TypeError` on the first loop
membership test (the set being non-empty); in both cases the file is left
unmodified. -/
theorem c10_type_errors (path : String) (S : Finset String)
    (cfs : List (String × Json)) :
    ((cfs.lookup "resource_types" = none ∨
        ∃ fs0, cfs.lookup "resource_types" = some (Json.obj fs0)) →
      (update_config path (some (Json.obj cfs)) S).raised = none) ∧
    ((update_config path (some Json.null) S).raised =
        some "TypeError: argument of type is not iterable" ∧
      (update_config path (some Json.null) S).fileAfter = some Json.null) ∧
    (S.Nonempty → cfs.lookup "resource_types" = some Json.null →
      (update_config path (some (Json.obj cfs)) S).raised =
        some "TypeError: argument of type is not iterable" ∧
      (update_config path (some (Json.obj cfs)) S).fileAfter =
        some (Json.obj cfs)) := by
  refine ⟨update_config_shape_ok path S cfs, ⟨rfl, rfl⟩, ?_⟩
  intro hS hnull
  have hcp : (Json.obj cfs).pyContains "resource_types" = .ok true := by
    simp [Json.pyContains, hnull]
  have hg : (Json.obj cfs).pyGetItem "resource_types" = .ok Json.null := by
    simp [Json.pyGetItem, hnull]
  obtain ⟨r, hr⟩ := hS
  cases hso : S.sort (· ≤ ·) with
  | nil =>
    have hmem : r ∈ S.sort (· ≤ ·) := (Finset.mem_sort (· ≤ ·)).mpr hr
    rw [hso] at hmem
    exact absurd hmem (List.not_mem_nil r)
  | cons a t =>
    have hl : updateLoop (S.sort (· ≤ ·)) Json.null 0 =
        .error "TypeError: argument of type is not iterable" := by
      rw [hso]; rfl
    unfold update_config
    simp only [hcp, if_true, hg, hl]
    constructor <;> trivial

/-- C10 witness: the three cases evaluated on concrete configs. -/
theorem c10_type_errors_witness :
    (update_config "config.yaml" (some (Json.obj [("a", Json.null)]))
      {"google_r"}).raised = none ∧
    (update_config "config.yaml" (some Json.null)
      ({"google_r"} : Finset String)).raised =
      some "TypeError: argument of type is not iterable" ∧
    (update_config "config.yaml" (some (Json.obj [("resource_types", Json.null)]))
      {"google_r"}).raised =
      some "TypeError: argument of type is not iterable" :=
  ⟨(c10_type_errors "config.yaml" {"google_r"} [("a", Json.null)]).1 (Or.inl rfl),
   ((c10_type_errors "config.yaml" {"google_r"} [("a", Json.null)]).2.1).1,
   ((c10_type_errors "config.yaml" {"google_r"}
      [("resource_types", Json.null)]).2.2
      (Finset.singleton_nonempty "google_r") rfl).1⟩

end Cfg2Hcl
